import Mathlib

/-!
Shallow embedding of `btoandav20/stores/oandav20store.py` (the
`OandaV20Store` class and its `MetaSingleton` metaclass), together with
proofs of the behavioural properties of its implemented operations.

Modelling conventions:
* the Python `collections.deque` of notifications is a Lean `List` with
  `append` on the right (Python `append`) and removal at the head
  (Python `popleft`); the sentinel `None` pushed by `get_notifications`
  is the `none` of an `Option`;
* account figures (`marginAvailable`, `balance`, `_cash`, `_value`) are
  `Rat`: the store only copies them around, no arithmetic is performed;
* raising an exception is the `Except.error` constructor;
* thread spawns and the bounded event wait performed by `start` /
  `broker_threads` / `streaming_events` are recorded as an explicit list
  of `Action`s, since the side effect itself lives outside the store
  state;
* one iteration of the `_t_account` polling loop is the function
  `t_account_step`, whose extra arguments stand for the outcome of the
  two external interactions of an iteration: the queue read
  (`QueueEvent`) and the account-summary fetch (`FetchResult`).
-/

namespace OandaV20

/-- The `backtrader` timeframe constants used as first components of the
keys of the granularity table. -/
inductive TimeFrame where
  | Ticks
  | MicroSeconds
  | Seconds
  | Minutes
  | Days
  | Weeks
  | Months
  | Years
  | NoTimeFrame
deriving DecidableEq, Repr

/-- The static granularity table `_GRANULARITIES`, in source order: a map
from (timeframe, compression) to the Oanda granularity code. -/
def _GRANULARITIES : List ((TimeFrame × Nat) × String) :=
  [((TimeFrame.Seconds, 5), "S5"),
   ((TimeFrame.Seconds, 10), "S10"),
   ((TimeFrame.Seconds, 15), "S15"),
   ((TimeFrame.Seconds, 30), "S30"),
   ((TimeFrame.Minutes, 1), "M1"),
   ((TimeFrame.Minutes, 2), "M3"),
   ((TimeFrame.Minutes, 3), "M3"),
   ((TimeFrame.Minutes, 4), "M4"),
   ((TimeFrame.Minutes, 5), "M5"),
   ((TimeFrame.Minutes, 10), "M10"),
   ((TimeFrame.Minutes, 15), "M15"),
   ((TimeFrame.Minutes, 30), "M30"),
   ((TimeFrame.Minutes, 60), "H1"),
   ((TimeFrame.Minutes, 120), "H2"),
   ((TimeFrame.Minutes, 180), "H3"),
   ((TimeFrame.Minutes, 240), "H4"),
   ((TimeFrame.Minutes, 360), "H6"),
   ((TimeFrame.Minutes, 480), "H8"),
   ((TimeFrame.Days, 1), "D"),
   ((TimeFrame.Weeks, 1), "W"),
   ((TimeFrame.Months, 1), "M")]

/-- `get_granularity(timeframe, compression)`: `dict.get` with default
`None` on the static table. -/
def get_granularity (timeframe : TimeFrame) (compression : Nat) : Option String :=
  (_GRANULARITIES.find? (fun kv => kv.1 == (timeframe, compression))).map Prod.snd

/-- On an association list whose keys are distinct, `find?` at a present
key returns that key's entry. -/
theorem find_assoc_of_mem {α β : Type} [BEq α] [LawfulBEq α] (l : List (α × β)) (k : α) (v : β)
    (hnd : (l.map Prod.fst).Nodup) (hmem : (k, v) ∈ l) :
    (l.find? (fun kv => kv.1 == k)).map Prod.snd = some v := by
  induction l with
  | nil => cases hmem
  | cons hd tl ih =>
    simp only [List.map_cons, List.nodup_cons] at hnd
    rcases List.mem_cons.mp hmem with heq | htl
    · subst heq
      simp [List.find?]
    · have hk : hd.1 ≠ k := by
        intro h
        exact hnd.1 (h ▸ (List.mem_map.mpr ⟨(k, v), htl, rfl⟩))
      have hb : (hd.1 == k) = false := beq_eq_false_iff_ne.mpr hk
      simp only [List.find?, hb]
      exact ih hnd.2 htl

/-- On an association list, `find?` at an absent key returns `none`. -/
theorem find_assoc_of_not_mem {α β : Type} [BEq α] [LawfulBEq α] (l : List (α × β)) (k : α)
    (hmem : k ∉ l.map Prod.fst) :
    l.find? (fun kv => kv.1 == k) = none := by
  induction l with
  | nil => rfl
  | cons hd tl ih =>
    simp only [List.map_cons, List.mem_cons] at hmem
    push_neg at hmem
    have hb : (hd.1 == k) = false := beq_eq_false_iff_ne.mpr (Ne.symm hmem.1)
    simp only [List.find?, hb]
    exact ih hmem.2

/-- The keys of the granularity table are pairwise distinct. -/
theorem granularities_keys_nodup : (_GRANULARITIES.map Prod.fst).Nodup := by
  decide

/-- C1: for every (timeframe, compression) pair that is a key of the
static granularity table, `get_granularity` returns the code the table
documents for that pair, and for every pair that is not a key it returns
the absence sentinel `none`. -/
theorem get_granularity_spec (timeframe : TimeFrame) (compression : Nat) :
    (∀ v : String, ((timeframe, compression), v) ∈ _GRANULARITIES →
      get_granularity timeframe compression = some v) ∧
    ((timeframe, compression) ∉ _GRANULARITIES.map Prod.fst →
      get_granularity timeframe compression = none) := by
  constructor
  · intro v hv
    show (_GRANULARITIES.find? (fun kv => kv.1 == (timeframe, compression))).map Prod.snd
      = some v
    exact find_assoc_of_mem _ _ _ granularities_keys_nodup hv
  · intro h
    show (_GRANULARITIES.find? (fun kv => kv.1 == (timeframe, compression))).map Prod.snd
      = none
    rw [find_assoc_of_not_mem _ _ h]
    rfl

/-- C1 witness: the table maps (Minutes, 5) to "M5", and (Seconds, 7) is
not a key, so lookup returns `none` there. -/
theorem get_granularity_spec_witness :
    get_granularity TimeFrame.Minutes 5 = some "M5" ∧
    get_granularity TimeFrame.Seconds 7 = none :=
  ⟨(get_granularity_spec TimeFrame.Minutes 5).1 "M5" (by decide),
   (get_granularity_spec TimeFrame.Seconds 7).2 (by decide)⟩

/-- The constructor parameters of the store (the `params` tuple). -/
structure StoreParams where
  token : String
  account : String
  practice : Bool
  account_tmout : Rat
deriving DecidableEq, Repr

/-- Default parameter values from the `params` tuple of the class. -/
def defaultParams : StoreParams :=
  { token := "", account := "", practice := false, account_tmout := 10 }

/-- A notification as stored by `put_notification`: the `(msg, args,
kwargs)` tuple. -/
structure Notification where
  msg : String
  args : List String
  kwargs : List (String × String)
deriving DecidableEq, Repr

/-- A data feed as seen by `start`: an opaque identity plus its `_env`
reference. -/
structure DataFeed where
  id : Nat
  env : Nat
deriving DecidableEq, Repr

/-- The mutable attributes of the `OandaV20Store` instance that the
implemented operations read or write.  `notifs` is the deque of
notifications; its elements are `Option Notification` because
`get_notifications` pushes the sentinel `None` (`none`) into the same
deque.  `cashAttr` models the plain attribute `cash` (distinct from
`_cash`): `none` while the attribute does not exist, `some none` once
`start(None, None)` has executed `self.cash = None`. -/
structure StoreState where
  p : StoreParams
  notifs : List (Option Notification)
  _cash : Rat
  _value : Rat
  evt_acct : Bool
  broker : Option Nat
  datas : List DataFeed
  env : Option Nat
  cashAttr : Option (Option Rat)
  q_account : List (Option Bool)
deriving DecidableEq, Repr

/-- The state left by `__init__`: empty notification deque, zero cash and
value, event not set, no broker, no datas. -/
def initStore (p : StoreParams) : StoreState :=
  { p := p, notifs := [], _cash := 0, _value := 0, evt_acct := false,
    broker := none, datas := [], env := none, cashAttr := none, q_account := [] }

/-- `get_cash()`: returns `self._cash`. -/
def get_cash (s : StoreState) : Rat := s._cash

/-- `get_value()`: returns `self._value`. -/
def get_value (s : StoreState) : Rat := s._value

/-- `put_notification(msg, *args, **kwargs)`: appends `(msg, args,
kwargs)` to the notification deque. -/
def put_notification (s : StoreState) (msg : String) (args : List String)
    (kwargs : List (String × String)) : StoreState :=
  { s with notifs := s.notifs ++ [some ⟨msg, args, kwargs⟩] }

/-- The drain loop of `get_notifications`: `popleft` repeatedly, stopping
at (and consuming) the first `None`; returns the popped values and the
remaining deque. -/
def drainTillSentinel : List (Option Notification) →
    List Notification × List (Option Notification)
  | [] => ([], [])
  | none :: rest => ([], rest)
  | some x :: rest =>
    let r := drainTillSentinel rest
    (x :: r.1, r.2)

/-- `get_notifications()`: appends the `None` sentinel, then pops from
the left until the sentinel; returns the popped notifications and the
store with the remaining deque. -/
def get_notifications (s : StoreState) : List Notification × StoreState :=
  let r := drainTillSentinel (s.notifs ++ [none])
  (r.1, { s with notifs := r.2 })

/-- Enqueue a list of notifications one by one with `put_notification`. -/
def putAll (s : StoreState) (msgs : List Notification) : StoreState :=
  msgs.foldl (fun t m => put_notification t m.msg m.args m.kwargs) s

/-- `putAll` appends the messages, wrapped in `some`, on the right of the
deque. -/
theorem putAll_notifs (s : StoreState) (msgs : List Notification) :
    (putAll s msgs).notifs = s.notifs ++ msgs.map some := by
  induction msgs generalizing s with
  | nil => simp [putAll]
  | cons m ms ih =>
    show (putAll (put_notification s m.msg m.args m.kwargs) ms).notifs = _
    rw [ih]
    simp [put_notification]

/-- `putAll` changes only the notification deque. -/
theorem putAll_frame (s : StoreState) (msgs : List Notification) :
    (putAll s msgs)._cash = s._cash ∧ (putAll s msgs)._value = s._value := by
  induction msgs generalizing s with
  | nil => exact ⟨rfl, rfl⟩
  | cons m ms ih =>
    exact ih (put_notification s m.msg m.args m.kwargs)

/-- Draining a sentinel-free prefix stops exactly at the first sentinel. -/
theorem drainTillSentinel_append (msgs : List Notification)
    (rest : List (Option Notification)) :
    drainTillSentinel (msgs.map some ++ none :: rest) = (msgs, rest) := by
  induction msgs with
  | nil => rfl
  | cons m ms ih =>
    simp only [List.map_cons, List.cons_append, drainTillSentinel, List.append_eq, ih]

/-- C3: starting from a freshly constructed store, `get_notifications`
returns exactly the notifications enqueued before its sentinel, in FIFO
order, and removes them; a second call returns only the notifications
enqueued after the first call. -/
theorem get_notifications_spec (p : StoreParams) (msgs1 msgs2 : List Notification) :
    (get_notifications (putAll (initStore p) msgs1)).1 = msgs1 ∧
    (get_notifications (putAll (initStore p) msgs1)).2.notifs = [] ∧
    (get_notifications
      (putAll (get_notifications (putAll (initStore p) msgs1)).2 msgs2)).1 = msgs2 := by
  have h1 : (putAll (initStore p) msgs1).notifs = msgs1.map some := by
    rw [putAll_notifs]; rfl
  have hd1 : drainTillSentinel ((putAll (initStore p) msgs1).notifs ++ [none])
      = (msgs1, []) := by
    rw [h1]; exact drainTillSentinel_append msgs1 []
  refine ⟨?_, ?_, ?_⟩
  · show (drainTillSentinel ((putAll (initStore p) msgs1).notifs ++ [none])).1 = msgs1
    rw [hd1]
  · show (drainTillSentinel ((putAll (initStore p) msgs1).notifs ++ [none])).2 = []
    rw [hd1]
  · have h2 : (get_notifications (putAll (initStore p) msgs1)).2.notifs = [] := by
      show (drainTillSentinel ((putAll (initStore p) msgs1).notifs ++ [none])).2 = []
      rw [hd1]
    have h3 : (putAll (get_notifications (putAll (initStore p) msgs1)).2 msgs2).notifs
        = msgs2.map some := by
      rw [putAll_notifs, h2]; rfl
    show (drainTillSentinel
      ((putAll (get_notifications (putAll (initStore p) msgs1)).2 msgs2).notifs
        ++ [none])).1 = msgs2
    rw [h3, drainTillSentinel_append msgs2 []]

/-- `stop()`: raises `Exception("Not implemented")`. -/
def stop (s : StoreState) : Except String StoreState :=
  .error "Not implemented"

/-- `get_positions()`: raises `Exception("Not implemented")`. -/
def get_positions (s : StoreState) : Except String (List Nat) :=
  .error "Not implemented"

/-- `get_instrument(dataname)`: raises `Exception("Not implemented")`. -/
def get_instrument (s : StoreState) (dataname : String) : Except String Nat :=
  .error "Not implemented"

/-- `candles(...)`: raises `Exception("Not implemented")`. -/
def candles (s : StoreState) (dataname : String) (dtbegin dtend : Nat)
    (timeframe : TimeFrame) (compression : Nat) (candleFormat : String)
    (includeFirst : Bool) : Except String (List Nat) :=
  .error "Not implemented"

/-- `streaming_prices(dataname, tmout)`: raises
`Exception("Not implemented")`. -/
def streaming_prices (s : StoreState) (dataname : String) (tmout : Option Rat) :
    Except String (List Nat) :=
  .error "Not implemented"

/-- `order_create(order, stopside, takeside, **kwargs)`: raises
`Exception("Not implemented")`. -/
def order_create (s : StoreState) (order : Nat) (stopside takeside : Option Nat) :
    Except String StoreState :=
  .error "Not implemented"

/-- `order_cancel(order)`: raises `Exception("Not implemented")`. -/
def order_cancel (s : StoreState) (order : Nat) : Except String StoreState :=
  .error "Not implemented"

/-- C2: each of `order_create`, `order_cancel`, `get_positions`,
`get_instrument`, `candles`, `streaming_prices` and `stop` raises the
not-implemented exception for every store state and argument values;
raising happens before any mutation, so the store state is unchanged
(the error value carries no state). -/
theorem unimplemented_ops_raise (s : StoreState) (order dtbegin dtend : Nat)
    (stopside takeside : Option Nat) (dataname candleFormat : String)
    (timeframe : TimeFrame) (compression : Nat) (includeFirst : Bool)
    (tmout : Option Rat) :
    order_create s order stopside takeside = .error "Not implemented" ∧
    order_cancel s order = .error "Not implemented" ∧
    get_positions s = .error "Not implemented" ∧
    get_instrument s dataname = .error "Not implemented" ∧
    candles s dataname dtbegin dtend timeframe compression candleFormat includeFirst
      = .error "Not implemented" ∧
    streaming_prices s dataname tmout = .error "Not implemented" ∧
    stop s = .error "Not implemented" :=
  ⟨rfl, rfl, rfl, rfl, rfl, rfl, rfl⟩

/-- The outcome of the blocking `q_account.get(timeout=...)` in one
iteration of `_t_account`: either a message was received, or the wait
timed out (`queue.Empty`). -/
inductive QueueEvent where
  | recv (m : Option Bool)
  | timeout
deriving DecidableEq, Repr

/-- The account object returned by a successful summary fetch; a `none`
field models the attribute access raising `KeyError`. -/
structure AccountInfo where
  marginAvailable : Option Rat
  balance : Option Rat
deriving DecidableEq, Repr

/-- The outcome of `self.oapi.account.summary(...)` followed by
`response.get('account')`: the account object, or an exception. -/
inductive FetchResult where
  | ok (acct : AccountInfo)
  | err (e : String)
deriving DecidableEq, Repr

/-- The effect of one iteration of the `while True` loop of
`_t_account` on the loop itself: exit via `break`, or continue with a
new store state. -/
inductive StepResult where
  | exit
  | next (s : StoreState)
deriving DecidableEq, Repr

/-- One iteration of the `_t_account` loop body.  A received `None`
message breaks the loop; a timeout (`queue.Empty`) is passed over.  Then
the summary fetch: on exception, `put_notification(e)` and `continue`;
on success, `self._cash = accinfo.marginAvailable` and `self._value =
accinfo.balance` inside a `try` that swallows `KeyError` (so a failing
first read leaves both fields, a failing second read leaves only
`_value`), and finally `self._evt_acct.set()`. -/
def t_account_step (s : StoreState) (qe : QueueEvent) (fetch : FetchResult) :
    StepResult :=
  match qe with
  | .recv none => .exit
  | _ =>
    match fetch with
    | .err e => .next (put_notification s e [] [])
    | .ok acct =>
      let s1 :=
        match acct.marginAvailable with
        | none => s
        | some c =>
          let s' := { s with _cash := c }
          match acct.balance with
          | none => s'
          | some v => { s' with _value := v }
      .next { s1 with evt_acct := true }

/-- C4: in every poller iteration whose fetch raises, the exception is
enqueued as a notification, `_cash` and `_value` are unchanged, and the
iteration ends with `continue`, not with loop exit. -/
theorem t_account_fetch_error (s : StoreState) (qe : QueueEvent) (e : String)
    (hqe : qe ≠ QueueEvent.recv none) :
    ∃ s', t_account_step s qe (FetchResult.err e) = StepResult.next s' ∧
      s'.notifs = s.notifs ++ [some ⟨e, [], []⟩] ∧
      s'._cash = s._cash ∧ s'._value = s._value := by
  refine ⟨put_notification s e [] [], ?_, rfl, rfl, rfl⟩
  cases qe with
  | recv m =>
    cases m with
    | none => exact absurd rfl hqe
    | some b => rfl
  | timeout => rfl

/-- C4 witness: a fetch error at a concrete state enqueues the exception
and leaves cash and value at their previous concrete values. -/
theorem t_account_fetch_error_witness :
    ∃ s', t_account_step (initStore defaultParams) QueueEvent.timeout
        (FetchResult.err "boom") = StepResult.next s' ∧
      s'.notifs = (initStore defaultParams).notifs ++ [some ⟨"boom", [], []⟩] ∧
      s'._cash = (initStore defaultParams)._cash ∧
      s'._value = (initStore defaultParams)._value :=
  t_account_fetch_error (initStore defaultParams) QueueEvent.timeout "boom"
    (by decide)

/-- C5: in every poller iteration whose fetch succeeds with both fields
present, afterwards `get_cash()` returns the account's
`marginAvailable` and `get_value()` returns its `balance`. -/
theorem t_account_fetch_ok (s : StoreState) (qe : QueueEvent) (c v : Rat)
    (hqe : qe ≠ QueueEvent.recv none) :
    ∃ s', t_account_step s qe (FetchResult.ok ⟨some c, some v⟩) = StepResult.next s' ∧
      get_cash s' = c ∧ get_value s' = v := by
  refine ⟨{ s with _cash := c, _value := v, evt_acct := true }, ?_, rfl, rfl⟩
  cases qe with
  | recv m =>
    cases m with
    | none => exact absurd rfl hqe
    | some b => rfl
  | timeout => rfl

/-- C5 witness: a successful fetch with concrete fields 7 and 9 makes
`get_cash` return 7 and `get_value` return 9. -/
theorem t_account_fetch_ok_witness :
    ∃ s', t_account_step (initStore defaultParams) QueueEvent.timeout
        (FetchResult.ok ⟨some 7, some 9⟩) = StepResult.next s' ∧
      get_cash s' = 7 ∧ get_value s' = 9 :=
  t_account_fetch_ok (initStore defaultParams) QueueEvent.timeout 7 9 (by decide)

/-- External side effects performed by `start` and its helpers, in
program order: starting daemon threads, calling
`broker.data_started(data)`, and the bounded wait
`self._evt_acct.wait(self.p.account_tmout)`. -/
inductive Action where
  | dataStarted (d : DataFeed)
  | spawnStreamingListener
  | spawnStreamingEvents
  | spawnAccountPoller
  | waitEvtAcct (tmout : Rat)
deriving DecidableEq, Repr

/-- `streaming_events(tmout)`: spawns the `_t_streaming_listener` and
`_t_streaming_events` daemon threads; the queue it builds is local, so
the store state is unchanged. -/
def streaming_events (s : StoreState) (tmout : Option Rat) :
    StoreState × List Action :=
  (s, [Action.spawnStreamingListener, Action.spawnStreamingEvents])

/-- `broker_threads()`: creates `self.q_account`, enqueues `True` to
force an immediate update, spawns the `_t_account` daemon thread, and
waits once on `_evt_acct` bounded by `account_tmout`. -/
def broker_threads (s : StoreState) : StoreState × List Action :=
  ({ s with q_account := [some true] },
   [Action.spawnAccountPoller, Action.waitEvtAcct s.p.account_tmout])

/-- `start(data, broker)`.  With both absent it sets the plain `cash`
attribute to `None` and returns.  With a data feed it stores the feed's
`_env`, appends the feed, and calls `broker.data_started(data)` when a
broker is registered.  Otherwise, with a broker, it registers the
broker, then runs `streaming_events()` and `broker_threads()`. -/
def start (s : StoreState) (data : Option DataFeed) (broker : Option Nat) :
    StoreState × List Action :=
  match data, broker with
  | none, none => ({ s with cashAttr := some none }, [])
  | some d, _ =>
    let s1 := { s with env := some d.env, datas := s.datas ++ [d] }
    match s.broker with
    | some _ => (s1, [Action.dataStarted d])
    | none => (s1, [])
  | none, some b =>
    let s1 := { s with broker := some b }
    let r1 := streaming_events s1 none
    let r2 := broker_threads r1.1
    (r2.1, r1.2 ++ r2.2)

/-- C7 counterexample: there IS a queue input that terminates the poller
loop: a `None` message makes the iteration `break`. -/
theorem t_account_none_terminates :
    t_account_step (initStore defaultParams) (QueueEvent.recv none)
      (FetchResult.ok ⟨some 1, some 2⟩) = StepResult.exit := rfl

/-- C7 amended: the poller loop terminates exactly on a `None` queue
message; every non-`None` message and every timeout continues the loop,
and the store itself only ever enqueues `True` on `q_account`
(`broker_threads`), so under the store's own usage the thread runs until
process exit. -/
theorem t_account_loop_behaviour (s : StoreState) (fr : FetchResult) (m : Bool) :
    t_account_step s (QueueEvent.recv none) fr = StepResult.exit ∧
    (∃ s', t_account_step s (QueueEvent.recv (some m)) fr = StepResult.next s') ∧
    (∃ s', t_account_step s QueueEvent.timeout fr = StepResult.next s') ∧
    (broker_threads s).1.q_account = [some true] := by
  refine ⟨rfl, ?_, ?_, rfl⟩
  · cases fr with
    | err e => exact ⟨_, rfl⟩
    | ok acct => exact ⟨_, rfl⟩
  · cases fr with
    | err e => exact ⟨_, rfl⟩
    | ok acct => exact ⟨_, rfl⟩

/-- C10 counterexample: when only the second field read (`balance`)
raises `KeyError`, `_cash` does NOT keep its previous value: it has
already been assigned the fetched `marginAvailable`. -/
theorem t_account_keyerror_updates_cash :
    ∃ s', t_account_step (initStore defaultParams) QueueEvent.timeout
        (FetchResult.ok ⟨some 5, none⟩) = StepResult.next s' ∧
      s'._cash ≠ (initStore defaultParams)._cash :=
  ⟨{ initStore defaultParams with _cash := 5, evt_acct := true }, rfl, by
    show (5 : Rat) ≠ (initStore defaultParams)._cash
    norm_num [initStore, defaultParams]⟩

/-- C10 amended: when the first field read (`marginAvailable`) raises
`KeyError`, both `_cash` and `_value` keep their previous values; when
only the second read (`balance`) raises, `_cash` is updated to the
fetched `marginAvailable` and `_value` keeps its previous value; in both
cases the `KeyError` is swallowed and the ready event is still set — so
the event being set does not imply that cash and value were updated from
a fetched account. -/
theorem t_account_keyerror (s : StoreState) (qe : QueueEvent) (c : Rat)
    (b : Option Rat) (hqe : qe ≠ QueueEvent.recv none) :
    t_account_step s qe (FetchResult.ok ⟨none, b⟩)
      = StepResult.next { s with evt_acct := true } ∧
    t_account_step s qe (FetchResult.ok ⟨some c, none⟩)
      = StepResult.next { s with _cash := c, evt_acct := true } := by
  cases qe with
  | recv m =>
    cases m with
    | none => exact absurd rfl hqe
    | some x => exact ⟨rfl, rfl⟩
  | timeout => exact ⟨rfl, rfl⟩

/-- C10 amended witness: concrete evaluations of both `KeyError`
shapes. -/
theorem t_account_keyerror_witness :
    t_account_step (initStore defaultParams) QueueEvent.timeout
      (FetchResult.ok ⟨none, some 3⟩)
      = StepResult.next { initStore defaultParams with evt_acct := true } ∧
    t_account_step (initStore defaultParams) QueueEvent.timeout
      (FetchResult.ok ⟨some 4, none⟩)
      = StepResult.next
          { initStore defaultParams with _cash := 4, evt_acct := true } :=
  t_account_keyerror (initStore defaultParams) QueueEvent.timeout 4 (some 3)
    (by decide)

/-- C9: `start(None, None)` returns immediately: it performs no action
(no thread spawn, no wait), leaves `_cash` and `_value` (and thus
`get_cash`/`get_value`) unchanged, and only sets the separate plain
attribute `cash` to `None`. -/
theorem start_no_args (s : StoreState) :
    start s none none = ({ s with cashAttr := some none }, ([] : List Action)) ∧
    get_cash (start s none none).1 = get_cash s ∧
    get_value (start s none none).1 = get_value s :=
  ⟨rfl, rfl, rfl⟩

/-- C6: `start` with a broker registers it, spawns the two streaming
threads and the account-poller thread, primes `q_account` with `True`,
and ends with the wait on `_evt_acct` bounded by the configured
`account_tmout`; the poller sets the ready event in every iteration
whose fetch succeeds (in particular the first), and the event is
one-shot: no iteration ever clears it. -/
theorem start_broker_spec (s : StoreState) (b : Nat) :
    (start s none (some b)).1.broker = some b ∧
    (start s none (some b)).2
      = [Action.spawnStreamingListener, Action.spawnStreamingEvents,
         Action.spawnAccountPoller, Action.waitEvtAcct s.p.account_tmout] ∧
    (start s none (some b)).1.q_account = [some true] ∧
    (∀ s' qe acct, qe ≠ QueueEvent.recv none →
      ∃ s'', t_account_step s' qe (FetchResult.ok acct) = StepResult.next s'' ∧
        s''.evt_acct = true) ∧
    (∀ s' qe fr s'', t_account_step s' qe fr = StepResult.next s'' →
      s'.evt_acct = true → s''.evt_acct = true) := by
  refine ⟨rfl, rfl, rfl, ?_, ?_⟩
  · intro s' qe acct hqe
    cases qe with
    | recv m =>
      cases m with
      | none => exact absurd rfl hqe
      | some x =>
        cases acct with
        | mk ma bal =>
          cases ma <;> cases bal <;> exact ⟨_, rfl, rfl⟩
    | timeout =>
      cases acct with
      | mk ma bal =>
        cases ma <;> cases bal <;> exact ⟨_, rfl, rfl⟩
  · intro s' qe fr s'' hstep hevt
    cases qe with
    | recv m =>
      cases m with
      | none => cases hstep
      | some x =>
        cases fr with
        | err e =>
          cases hstep
          exact hevt
        | ok acct =>
          cases acct with
          | mk ma bal =>
            cases ma <;> cases bal <;> (cases hstep; rfl)
    | timeout =>
      cases fr with
      | err e =>
        cases hstep
        exact hevt
      | ok acct =>
        cases acct with
        | mk ma bal =>
          cases ma <;> cases bal <;> (cases hstep; rfl)

/-- C6 witness: concrete broker start from a fresh store, and a concrete
first successful fetch setting the ready event. -/
theorem start_broker_spec_witness :
    (start (initStore defaultParams) none (some 1)).1.broker = some 1 ∧
    (start (initStore defaultParams) none (some 1)).2
      = [Action.spawnStreamingListener, Action.spawnStreamingEvents,
         Action.spawnAccountPoller,
         Action.waitEvtAcct (initStore defaultParams).p.account_tmout] ∧
    (∃ s'', t_account_step (initStore defaultParams) QueueEvent.timeout
        (FetchResult.ok ⟨some 1, some 2⟩) = StepResult.next s'' ∧
      s''.evt_acct = true) :=
  ⟨(start_broker_spec (initStore defaultParams) 1).1,
   (start_broker_spec (initStore defaultParams) 1).2.1,
   (start_broker_spec (initStore defaultParams) 1).2.2.2.1
     (initStore defaultParams) QueueEvent.timeout ⟨some 1, some 2⟩ (by decide)⟩

/-- `MetaSingleton.__call__`: if `cls._singleton` is `None`, construct
the instance and cache it; otherwise return the cached instance,
ignoring the arguments.  Returns the new cache and the returned
instance. -/
def metaSingletonCall {Args Inst : Type} (mk : Args → Inst) :
    Option Inst → Args → Option Inst × Inst
  | none, a => (some (mk a), mk a)
  | some i, _ => (some i, i)

/-- A sequence of constructor calls through `MetaSingleton.__call__`,
starting from a given cache, returning the instance each call yields. -/
def singletonCalls {Args Inst : Type} (mk : Args → Inst) :
    Option Inst → List Args → List Inst
  | _, [] => []
  | st, a :: rest =>
    let r := metaSingletonCall mk st a
    r.2 :: singletonCalls mk r.1 rest

/-- Once the cache is filled, every later call returns the cached
instance regardless of its arguments. -/
theorem singletonCalls_some {Args Inst : Type} (mk : Args → Inst) (i : Inst)
    (l : List Args) :
    singletonCalls mk (some i) l = List.replicate l.length i := by
  induction l with
  | nil => rfl
  | cons a rest ih =>
    show i :: singletonCalls mk (some i) rest = _
    rw [ih]
    rfl

/-- C8: through the singleton metaclass, the first constructor call
creates the instance and every subsequent call returns that same
instance, ignoring its own arguments; in particular the store class
itself, constructed from its parameters, behaves this way. -/
theorem metaSingleton_spec :
    (∀ {Args Inst : Type} (mk : Args → Inst) (a : Args) (rest : List Args),
      singletonCalls mk none (a :: rest)
        = List.replicate (rest.length + 1) (mk a)) ∧
    (∀ (p : StoreParams) (ps : List StoreParams),
      singletonCalls initStore none (p :: ps)
        = List.replicate (ps.length + 1) (initStore p)) := by
  have h : ∀ {Args Inst : Type} (mk : Args → Inst) (a : Args) (rest : List Args),
      singletonCalls mk none (a :: rest)
        = List.replicate (rest.length + 1) (mk a) := by
    intro Args Inst mk a rest
    show mk a :: singletonCalls mk (some (mk a)) rest = _
    rw [singletonCalls_some]
    rfl
  exact ⟨h, fun p ps => h initStore p ps⟩

end OandaV20
